import Mathlib

/-!
Verification of the SpendWatch PH conversation-memory manager, analytical
query service and API-key store, shallowly embedded from the TypeScript
sources (chat store, chat panel, claudeService, duckdbService, apiKey store,
constants).
-/

namespace SpendWatch

/-- Message roles admitted by the ChatMessage type in the source
(`role: 'user' | 'assistant' | 'system'`). -/
inductive Role where
  | user
  | assistant
  | system
deriving DecidableEq

/-- The narrower role type accepted by `addMessage` and by the API payload
(`'user' | 'assistant'` in the source). -/
inductive ChatRole where
  | user
  | assistant
deriving DecidableEq

/-- Widening from the addMessage role type into the stored role type. -/
def ChatRole.toRole : ChatRole → Role
  | ChatRole.user => Role.user
  | ChatRole.assistant => Role.assistant

/-- One turn of conversation, from the ChatMessage interface. `id` and
`timestamp` are opaque numbers (generateId and Date.now are external);
`tokensUsed` models the optional metadata actually read by the store. -/
structure ChatMessage where
  id : Nat
  role : Role
  content : String
  timestamp : Nat
  tokensUsed : Option Nat
deriving DecidableEq

/-- The chat store state (`ChatState` interface fields that carry data).
`conversationSummary` is `string | null` in the source, modelled as
`Option String`; `totalTokensUsed` is a sum of nonnegative token counts. -/
structure ChatState where
  messages : List ChatMessage
  isLoading : Bool
  error : Option String
  conversationSummary : Option String
  totalTokensUsed : Nat
  sessionStarted : Nat
deriving DecidableEq

/-- UI_CONFIG.MAX_CHAT_HISTORY from constants. -/
def MAX_CHAT_HISTORY : Nat := 50

/-- CLAUDE_API.MAX_CONTEXT_TOKENS from constants. -/
def MAX_CONTEXT_TOKENS : Nat := 8000

/-- JavaScript `arr.slice(-n)` (for `n ≥ 1`): the suffix of the most
recent `min n (length arr)` elements. -/
def takeLast (n : Nat) (l : List α) : List α := l.drop (l.length - n)

/-- JavaScript truthiness of a string: the empty string is falsy. -/
def strTruthy (s : String) : Bool := !s.data.isEmpty

/-- JavaScript truthiness of `string | null`. -/
def truthyOptStr : Option String → Bool
  | none => false
  | some t => strTruthy t

/-- Constructs the ChatMessage appended by `addMessage` in the chat store. -/
def mkChatMessage (id ts : Nat) (role : ChatRole) (content : String)
    (meta : Option Nat) : ChatMessage :=
  { id := id, role := role.toRole, content := content, timestamp := ts,
    tokensUsed := meta }

/-- `addMessage` from the chat store: append the new message, then trim to
the most recent MAX_CHAT_HISTORY messages (`slice(-MAX_CHAT_HISTORY)`) when
the cap is exceeded. -/
def addMessage (id ts : Nat) (role : ChatRole) (content : String)
    (meta : Option Nat) (s : ChatState) : ChatState :=
  let updated := s.messages ++ [mkChatMessage id ts role content meta]
  if updated.length > MAX_CHAT_HISTORY then
    { s with messages := takeLast MAX_CHAT_HISTORY updated }
  else
    { s with messages := updated }

/-- The synthetic greeting message installed by `clearMessages`. -/
def clearGreeting (id ts : Nat) : ChatMessage :=
  { id := id, role := Role.assistant,
    content := "Conversation cleared. Ready to help you explore Philippine government procurement data again!\n\nWhat would you like to know?",
    timestamp := ts, tokensUsed := none }

/-- `clearMessages` from the chat store. -/
def clearMessages (id ts : Nat) (s : ChatState) : ChatState :=
  { s with
    messages := [clearGreeting id ts]
    conversationSummary := none
    totalTokensUsed := 0
    error := none }

/-- `setLoading` from the chat store. -/
def setLoading (b : Bool) (s : ChatState) : ChatState := { s with isLoading := b }

/-- `setError` from the chat store. -/
def setError (e : Option String) (s : ChatState) : ChatState := { s with error := e }

/-- `updateSummary` from the chat store. -/
def updateSummary (t : String) (s : ChatState) : ChatState :=
  { s with conversationSummary := some t }

/-- `addTokenUsage` from the chat store. -/
def addTokenUsage (n : Nat) (s : ChatState) : ChatState :=
  { s with totalTokensUsed := s.totalTokensUsed + n }

/-- `shouldSummarize` from the chat store. The source compares
`totalTokensUsed > MAX_CONTEXT_TOKENS * 0.7`; `8000 * 0.7` evaluates to
exactly `5600` in binary64 and `totalTokensUsed` is an integer, so the
comparison is modelled exactly as `10 * tokens > 7 * MAX_CONTEXT_TOKENS`. -/
def shouldSummarize (s : ChatState) : Bool :=
  decide (15 < s.messages.length) &&
    (!truthyOptStr s.conversationSummary ||
      decide (7 * MAX_CONTEXT_TOKENS < 10 * s.totalTokensUsed))

/-- An entry of the message list sent to the API (`{role, content}`). The
role is kept at the wide type to model the unchecked cast in the source. -/
structure APIMessage where
  role : Role
  content : String
deriving DecidableEq

/-- Projection of a stored message into an API entry. -/
def apiProj (m : ChatMessage) : APIMessage := { role := m.role, content := m.content }

/-- The role filter applied by `getMessagesForAPI`. -/
def isUserOrAssistant (m : ChatMessage) : Bool :=
  m.role == Role.user || m.role == Role.assistant

/-- The filtered message list inside `getMessagesForAPI`. -/
def filteredMessages (s : ChatState) : List ChatMessage :=
  s.messages.filter isUserOrAssistant

/-- The synthetic leading entry carrying the summary text. -/
def summaryApiMessage (t : String) : APIMessage :=
  { role := Role.user,
    content := "[Previous conversation summary: " ++ t ++ "]" }

/-- `getMessagesForAPI` from the chat store: filter to user/assistant roles;
with a truthy summary and more than 10 filtered messages emit the synthetic
summary entry plus the last 6; otherwise the last 20. -/
def getMessagesForAPI (s : ChatState) : List APIMessage :=
  if truthyOptStr s.conversationSummary && decide (10 < (filteredMessages s).length) then
    summaryApiMessage (s.conversationSummary.getD "") ::
      (takeLast 6 (filteredMessages s)).map apiProj
  else
    (takeLast 20 (filteredMessages s)).map apiProj

/-- One `addMessage` invocation (arguments of one call). -/
structure AddCall where
  id : Nat
  ts : Nat
  role : ChatRole
  content : String
  tokens : Option Nat
deriving DecidableEq

/-- Runs one recorded `addMessage` call against a state. -/
def applyAddCall (s : ChatState) (c : AddCall) : ChatState :=
  addMessage c.id c.ts c.role c.content c.tokens s

/-- Runs a sequence of `addMessage` calls in order. -/
def applyAddCalls (s : ChatState) (cs : List AddCall) : ChatState :=
  cs.foldl applyAddCall s

/-- The initial greeting message (text abridged; no claim depends on its
wording). -/
def initialGreeting : ChatMessage :=
  { id := 0
    role := Role.assistant
    content := "Magandang araw! Ask about Philippine government procurement data."
    timestamp := 0
    tokensUsed := none }

/-- The initial chat store state, abridged to the fields the claims use. -/
def initialState : ChatState :=
  { messages := [initialGreeting]
    isLoading := false
    error := none
    conversationSummary := none
    totalTokensUsed := 0
    sessionStarted := 0 }

theorem takeLast_length_le (n : Nat) (l : List α) : (takeLast n l).length ≤ n := by
  simp only [takeLast, List.length_drop]
  omega

theorem takeLast_sublist (n : Nat) (l : List α) : (takeLast n l).Sublist l :=
  List.drop_sublist _ _

/-- The messages after `addMessage` are exactly the most recent
MAX_CHAT_HISTORY elements of the appended list. -/
theorem addMessage_messages (id ts : Nat) (role : ChatRole) (content : String)
    (meta : Option Nat) (s : ChatState) :
    (addMessage id ts role content meta s).messages =
      takeLast MAX_CHAT_HISTORY (s.messages ++ [mkChatMessage id ts role content meta]) := by
  unfold addMessage
  dsimp only
  split
  · rfl
  · rename_i h
    show s.messages ++ [mkChatMessage id ts role content meta] = takeLast _ _
    unfold takeLast
    rw [Nat.sub_eq_zero_of_le (Nat.le_of_not_lt h), List.drop_zero]

theorem addMessage_length_le (id ts : Nat) (role : ChatRole) (content : String)
    (meta : Option Nat) (s : ChatState) :
    (addMessage id ts role content meta s).messages.length ≤ MAX_CHAT_HISTORY := by
  rw [addMessage_messages]
  exact takeLast_length_le _ _

theorem applyAddCalls_length_le (cs : List AddCall) :
    ∀ s : ChatState, s.messages.length ≤ MAX_CHAT_HISTORY →
      (applyAddCalls s cs).messages.length ≤ MAX_CHAT_HISTORY := by
  induction cs with
  | nil => intro s h; exact h
  | cons c cs ih =>
      intro s _
      have h1 : applyAddCalls s (c :: cs) = applyAddCalls (applyAddCall s c) cs := rfl
      rw [h1]
      exact ih _ (addMessage_length_le _ _ _ _ _ _)

/-- Claim C1: for every sequence of addMessage calls the stored message list
never exceeds MAX_CHAT_HISTORY (= 50) after the trim, and each call performs
a pure FIFO trim keeping the most recent 50 messages (the result is exactly
the most-recent-50 suffix of the appended list); addMessage is total, so it
always succeeds. -/
theorem c1_addMessage_cap (s : ChatState) (cs : List AddCall) (h : cs ≠ []) :
    (applyAddCalls s cs).messages.length ≤ MAX_CHAT_HISTORY ∧
    (∀ (s2 : ChatState) (c : AddCall),
      (applyAddCall s2 c).messages =
        takeLast MAX_CHAT_HISTORY
          (s2.messages ++ [mkChatMessage c.id c.ts c.role c.content c.tokens])) := by
  constructor
  · match cs with
    | [] => exact absurd rfl h
    | c :: cs2 =>
        have h1 : applyAddCalls s (c :: cs2) = applyAddCalls (applyAddCall s c) cs2 := rfl
        rw [h1]
        exact applyAddCalls_length_le cs2 _ (addMessage_length_le _ _ _ _ _ _)
  · intro s2 c
    exact addMessage_messages _ _ _ _ _ _

/-- Witness for claim C1 at a concrete call sequence. -/
theorem c1_addMessage_cap_witness :
    (applyAddCalls initialState
      [{ id := 1, ts := 1, role := ChatRole.user, content := "hello", tokens := none }]).messages.length ≤
      MAX_CHAT_HISTORY :=
  (c1_addMessage_cap initialState
    [{ id := 1, ts := 1, role := ChatRole.user, content := "hello", tokens := none }]
    (List.cons_ne_nil _ _)).1

/-- A concrete state with a summary and 11 user messages, used as witness
input. -/
def stateC3 : ChatState :=
  { messages := (List.range 11).map (fun i =>
      { id := i, role := Role.user, content := "m", timestamp := i, tokensUsed := none })
    isLoading := false
    error := none
    conversationSummary := some "S"
    totalTokensUsed := 0
    sessionStarted := 0 }

theorem string_data_nil_iff (t : String) : t.data = [] ↔ t = "" := by
  rw [String.ext_iff]

theorem strTruthy_false_iff (t : String) : strTruthy t = false ↔ t = "" := by
  unfold strTruthy
  simp [List.isEmpty_iff, string_data_nil_iff]

theorem strTruthy_true_iff (t : String) : strTruthy t = true ↔ t ≠ "" := by
  unfold strTruthy
  simp [List.isEmpty_iff, string_data_nil_iff]

/-- Claim C2: shouldSummarize is a pure predicate that is true iff the
stored message count exceeds 15 and (no summary exists yet — the
`string | null` field is null or empty, matching the JS falsiness test —
or cumulative token usage exceeds 70 percent of MAX_CONTEXT_TOKENS); in
particular it is false whenever the message count is at most 15. -/
theorem c2_shouldSummarize_spec (s : ChatState) :
    (shouldSummarize s = true ↔
      (15 < s.messages.length ∧
        ((s.conversationSummary = none ∨ s.conversationSummary = some "") ∨
          7 * MAX_CONTEXT_TOKENS < 10 * s.totalTokensUsed))) ∧
    (s.messages.length ≤ 15 → shouldSummarize s = false) := by
  have hmain : shouldSummarize s = true ↔
      (15 < s.messages.length ∧
        ((s.conversationSummary = none ∨ s.conversationSummary = some "") ∨
          7 * MAX_CONTEXT_TOKENS < 10 * s.totalTokensUsed)) := by
    unfold shouldSummarize truthyOptStr
    rcases hs : s.conversationSummary with _ | t
    · simp
    · simp [strTruthy_false_iff]
  refine ⟨hmain, ?_⟩
  intro hle
  cases hb : shouldSummarize s
  · rfl
  · have h2 := hmain.mp hb
    omega

/-- Witness for claim C2 at a concrete state: 15 messages and huge token
usage, yet shouldSummarize is false. -/
theorem c2_shouldSummarize_spec_witness :
    shouldSummarize
      { messages := (List.range 15).map (fun i =>
          { id := i, role := Role.user, content := "q", timestamp := i, tokensUsed := none })
        isLoading := false
        error := none
        conversationSummary := none
        totalTokensUsed := 1000000
        sessionStarted := 0 } = false :=
  (c2_shouldSummarize_spec _).2 (by decide)

theorem takeLast_map_sublist (n : Nat) (s : ChatState) :
    ((takeLast n (filteredMessages s)).map apiProj).Sublist (s.messages.map apiProj) :=
  List.Sublist.map apiProj
    ((takeLast_sublist n (filteredMessages s)).trans (List.filter_sublist s.messages))

/-- Claim C3: getMessagesForAPI emits, when a non-empty summary exists and
the (role-filtered) message count exceeds 10, exactly one synthetic leading
summary entry followed by the most recent 6 messages (output length at most
7); otherwise the last 20 messages with no summary entry; the output never
exceeds 20 entries, and apart from the synthetic leading entry it is an
order-preserving selection from the stored messages. -/
theorem c3_getMessagesForAPI_spec (s : ChatState) :
    (getMessagesForAPI s).length ≤ 20 ∧
    (∀ t, s.conversationSummary = some t → t ≠ "" →
      10 < (filteredMessages s).length →
      getMessagesForAPI s =
        summaryApiMessage t :: (takeLast 6 (filteredMessages s)).map apiProj ∧
      (getMessagesForAPI s).length ≤ 7) ∧
    ((truthyOptStr s.conversationSummary = false ∨ (filteredMessages s).length ≤ 10) →
      getMessagesForAPI s = (takeLast 20 (filteredMessages s)).map apiProj) ∧
    (∃ rest,
      (getMessagesForAPI s = rest ∨
        ∃ t, s.conversationSummary = some t ∧
          getMessagesForAPI s = summaryApiMessage t :: rest) ∧
      rest.Sublist (s.messages.map apiProj)) := by
  refine ⟨?_, ?_, ?_, ?_⟩
  · unfold getMessagesForAPI
    split
    · have h6 := takeLast_length_le 6 (filteredMessages s)
      simp only [List.length_cons, List.length_map]
      omega
    · have h20 := takeLast_length_le 20 (filteredMessages s)
      simp only [List.length_map]
      omega
  · intro t ht hne hlen
    have htr : truthyOptStr s.conversationSummary = true := by
      rw [ht]
      exact (strTruthy_true_iff t).mpr hne
    constructor
    · unfold getMessagesForAPI
      split
      · rw [ht]
        rfl
      · rename_i hcond
        rw [htr, decide_eq_true hlen] at hcond
        simp at hcond
    · unfold getMessagesForAPI
      split
      · have h6 := takeLast_length_le 6 (filteredMessages s)
        simp only [List.length_cons, List.length_map]
        omega
      · rename_i hcond
        rw [htr, decide_eq_true hlen] at hcond
        simp at hcond
  · intro hdisj
    unfold getMessagesForAPI
    split
    · rename_i hcond
      exfalso
      rw [Bool.and_eq_true] at hcond
      obtain ⟨h1, h2⟩ := hcond
      cases hdisj with
      | inl h => rw [h] at h1; exact Bool.false_ne_true h1
      | inr h => rw [decide_eq_true_eq] at h2; omega
    · rfl
  · unfold getMessagesForAPI
    split
    · rename_i hcond
      refine ⟨(takeLast 6 (filteredMessages s)).map apiProj, ?_, takeLast_map_sublist 6 s⟩
      right
      rw [Bool.and_eq_true] at hcond
      rcases hs : s.conversationSummary with _ | t
      · rw [hs] at hcond
        simp [truthyOptStr] at hcond
      · exact ⟨t, rfl, rfl⟩
    · exact ⟨(takeLast 20 (filteredMessages s)).map apiProj, Or.inl rfl,
        takeLast_map_sublist 20 s⟩

/-- Witness for claim C3 at a concrete state: summary "S" and 11 user
messages yield the synthetic summary entry plus the last 6 messages. -/
theorem c3_getMessagesForAPI_spec_witness :
    getMessagesForAPI stateC3 =
      summaryApiMessage "S" :: (takeLast 6 (filteredMessages stateC3)).map apiProj :=
  ((c3_getMessagesForAPI_spec stateC3).2.1 "S" rfl (by decide) (by decide)).1

/-- Claim C4: clearMessages leaves exactly one synthetic greeting message,
a cleared summary, a token counter of exactly zero, and a cleared error. -/
theorem c4_clearMessages_spec (s : ChatState) (id ts : Nat) :
    (clearMessages id ts s).messages = [clearGreeting id ts] ∧
    (clearMessages id ts s).messages.length = 1 ∧
    (clearMessages id ts s).conversationSummary = none ∧
    (clearMessages id ts s).totalTokensUsed = 0 ∧
    (clearMessages id ts s).error = none :=
  ⟨rfl, rfl, rfl, rfl, rfl⟩

/-- Role names as serialized into the summarization transcript
(template `role: content`). -/
def roleName : Role → String
  | Role.user => "user"
  | Role.assistant => "assistant"
  | Role.system => "system"

/-- One line of the summarization transcript. -/
def messageLine (m : ChatMessage) : String := roleName m.role ++ ": " ++ m.content

/-- JavaScript `Array.prototype.join(sep)`. -/
def joinSep (sep : String) : List String → String
  | [] => ""
  | [x] => x
  | x :: y :: rest => x ++ sep ++ joinSep sep (y :: rest)

/-- The transcript built by `summarizeConversation` in claudeService:
every message of the list it is given, joined by blank lines. -/
def conversationText (ms : List ChatMessage) : String :=
  joinSep "\n\n" (ms.map messageLine)

/-- One full send turn of ChatPanel.handleSend: append the user message,
set loading and clear the error; on stream completion append the assistant
message with its usage, add the token usage, clear loading; then, when
shouldSummarize() holds on the updated store, call summarizeConversation
with the message list captured by the component closure at render time
(the pre-turn snapshot `s.messages`) and apply updateSummary on success,
or leave the state untouched on failure (the catch only logs). Returns the
resulting state and the message list handed to summarizeConversation (none
when summarization was not triggered). The summarization outcome is the
external AI call, passed in as a parameter. -/
def handleSendTurn (idU tsU idA tsA : Nat) (userText fullResponse : String)
    (usage : Nat) (summarizeResult : Except String String) (s : ChatState) :
    ChatState × Option (List ChatMessage) :=
  let snapshot := s.messages
  let s1 := setError none (setLoading true
    (addMessage idU tsU ChatRole.user userText none s))
  let s2 := setLoading false (addTokenUsage usage
    (addMessage idA tsA ChatRole.assistant fullResponse (some usage) s1))
  if shouldSummarize s2 then
    match summarizeResult with
    | Except.ok t => (updateSummary t s2, some snapshot)
    | Except.error _ => (s2, some snapshot)
  else
    (s2, none)

theorem addMessage_conversationSummary (id ts : Nat) (role : ChatRole)
    (content : String) (meta : Option Nat) (s : ChatState) :
    (addMessage id ts role content meta s).conversationSummary = s.conversationSummary := by
  unfold addMessage
  dsimp only
  split <;> rfl

theorem addMessage_error (id ts : Nat) (role : ChatRole)
    (content : String) (meta : Option Nat) (s : ChatState) :
    (addMessage id ts role content meta s).error = s.error := by
  unfold addMessage
  dsimp only
  split <;> rfl

/-- Claim C6: when the background summarization call fails, the stored
conversation summary is left unchanged and the chat error state stays
null (handleSend cleared it at send time and the catch only logs). -/
theorem c6_summarize_failure_silent (idU tsU idA tsA : Nat)
    (userText fullResponse : String) (usage : Nat) (e : String) (s : ChatState) :
    (handleSendTurn idU tsU idA tsA userText fullResponse usage
        (Except.error e) s).1.conversationSummary = s.conversationSummary ∧
    (handleSendTurn idU tsU idA tsA userText fullResponse usage
        (Except.error e) s).1.error = none := by
  unfold handleSendTurn
  dsimp only
  constructor
  · split
    · show (setLoading false (addTokenUsage usage (addMessage idA tsA
          ChatRole.assistant fullResponse (some usage) _))).conversationSummary =
        s.conversationSummary
      show (addMessage idA tsA ChatRole.assistant fullResponse (some usage)
          _).conversationSummary = s.conversationSummary
      rw [addMessage_conversationSummary]
      show (addMessage idU tsU ChatRole.user userText none s).conversationSummary =
        s.conversationSummary
      rw [addMessage_conversationSummary]
    · show (addMessage idA tsA ChatRole.assistant fullResponse (some usage)
          _).conversationSummary = s.conversationSummary
      rw [addMessage_conversationSummary]
      show (addMessage idU tsU ChatRole.user userText none s).conversationSummary =
        s.conversationSummary
      rw [addMessage_conversationSummary]
  · split
    · show (addMessage idA tsA ChatRole.assistant fullResponse (some usage)
          _).error = none
      rw [addMessage_error]
      rfl
    · show (addMessage idA tsA ChatRole.assistant fullResponse (some usage)
          _).error = none
      rw [addMessage_error]
      rfl

theorem joinSep_mem_decomp (sep : String) (xs : List String) (x : String) :
    x ∈ xs → ∃ p q, joinSep sep xs = p ++ x ++ q := by
  induction xs with
  | nil => intro hx; cases hx
  | cons a rest ih =>
      intro hx
      cases rest with
      | nil =>
          have hxa : x = a := by
            rcases List.mem_cons.mp hx with h | h
            · exact h
            · cases h
          subst hxa
          refine ⟨"", "", ?_⟩
          rw [String.append_empty, String.empty_append]
          rfl
      | cons b rest2 =>
          rcases List.mem_cons.mp hx with hxa | hmem
          · subst hxa
            refine ⟨"", sep ++ joinSep sep (b :: rest2), ?_⟩
            show x ++ sep ++ joinSep sep (b :: rest2) = _
            rw [String.empty_append, String.append_assoc]
          · obtain ⟨p, q, hpq⟩ := ih hmem
            refine ⟨a ++ sep ++ p, q, ?_⟩
            show a ++ sep ++ joinSep sep (b :: rest2) = _
            rw [hpq]
            simp only [String.append_assoc]

theorem conversationText_mem_decomp (ms : List ChatMessage) (m : ChatMessage)
    (hm : m ∈ ms) : ∃ p q, conversationText ms = p ++ messageLine m ++ q :=
  joinSep_mem_decomp _ _ _ (List.mem_map_of_mem messageLine hm)

/-- The list with its final `n` elements removed (the complement of
`takeLast n`). -/
def dropLastN (n : Nat) (l : List α) : List α := l.take (l.length - n)

/-- A concrete user message, numbered. -/
def mkUserMsg (i : Nat) : ChatMessage :=
  { id := i, role := Role.user, content := "m" ++ toString i, timestamp := i,
    tokensUsed := none }

/-- A concrete state with 16 user messages and no summary yet, so the next
completed turn triggers summarization. -/
def stateC5 : ChatState :=
  { messages := (List.range 16).map mkUserMsg
    isLoading := false
    error := none
    conversationSummary := none
    totalTokensUsed := 0
    sessionStarted := 0 }

/-- Claim C5 counterexample: on a concrete 16-message state the list handed
to summarizeConversation is the entire pre-turn snapshot, whose last message
lies inside the most-recent-6 tail of the stored messages after the turn,
and the transcript differs from the transcript of the stored messages with
that tail excluded — so the summarized text is not restricted to the older,
aging-out messages. -/
theorem c5_summarize_tail_not_excluded :
    (handleSendTurn 100 100 101 101 "question" "answer" 10
        (Except.ok "s") stateC5).2 = some stateC5.messages ∧
    mkUserMsg 15 ∈ takeLast 6
      (handleSendTurn 100 100 101 101 "question" "answer" 10
        (Except.ok "s") stateC5).1.messages ∧
    mkUserMsg 15 ∈ stateC5.messages ∧
    conversationText stateC5.messages ≠
      conversationText (dropLastN 6 (handleSendTurn 100 100 101 101 "question"
        "answer" 10 (Except.ok "s") stateC5).1.messages) := by
  decide

/-- Claim C5 (amended): whenever summarization is triggered after an
assistant turn completes, the message list handed to the external
summarization call is the full render-time snapshot of the stored messages
(`s.messages` before the turn), and the transcript built from it contains
every one of those messages — no buffer-window-sized most-recent tail is
excluded; the only messages absent are the current turn's new user and
assistant messages, which postdate the snapshot. -/
theorem c5_summarize_input_full_snapshot (idU tsU idA tsA : Nat)
    (userText fullResponse : String) (usage : Nat) (res : Except String String)
    (s : ChatState) (handed : List ChatMessage)
    (h : (handleSendTurn idU tsU idA tsA userText fullResponse usage res s).2 =
      some handed) :
    handed = s.messages ∧
    ∀ m ∈ handed, ∃ p q, conversationText handed = p ++ messageLine m ++ q := by
  have hh : handed = s.messages := by
    unfold handleSendTurn at h
    dsimp only at h
    split at h
    · cases res with
      | ok t =>
          simp only [Option.some.injEq] at h
          exact h.symm
      | error e =>
          simp only [Option.some.injEq] at h
          exact h.symm
    · simp at h
  exact ⟨hh, fun m hm => conversationText_mem_decomp handed m hm⟩

/-- Witness for the amended claim C5 at the concrete 16-message state. -/
theorem c5_summarize_input_full_snapshot_witness :
    ∃ p q, conversationText stateC5.messages = p ++ messageLine (mkUserMsg 15) ++ q :=
  (c5_summarize_input_full_snapshot 100 100 101 101 "question" "answer" 10
    (Except.ok "s") stateC5 stateC5.messages (by decide)).2 (mkUserMsg 15) (by decide)

/-- Claim C10: every entry of getMessagesForAPI has role user or assistant;
a stored system-role message is filtered out, and the synthetic summary
entry carries the user role, so no system-role entry ever appears. -/
theorem c10_getMessagesForAPI_no_system_role (s : ChatState) (e : APIMessage)
    (h : e ∈ getMessagesForAPI s) : e.role ≠ Role.system := by
  have hfil : ∀ m : ChatMessage, m ∈ filteredMessages s → m.role ≠ Role.system := by
    intro m hm hc
    have h2 := List.of_mem_filter hm
    unfold isUserOrAssistant at h2
    rw [hc] at h2
    exact absurd h2 (by decide)
  unfold getMessagesForAPI at h
  split at h
  · rcases List.mem_cons.mp h with he | he
    · rw [he]
      intro hc
      cases hc
    · obtain ⟨m, hm, hme⟩ := List.mem_map.mp he
      rw [← hme]
      exact hfil m ((takeLast_sublist 6 _).subset hm)
  · obtain ⟨m, hm, hme⟩ := List.mem_map.mp h
    rw [← hme]
    exact hfil m ((takeLast_sublist 20 _).subset hm)

/-- A concrete state holding a system-role message next to a user message. -/
def stateC10 : ChatState :=
  { messages := [
      { id := 0, role := Role.system, content := "ctx", timestamp := 0, tokensUsed := none },
      { id := 1, role := Role.user, content := "hi", timestamp := 1, tokensUsed := none }]
    isLoading := false
    error := none
    conversationSummary := none
    totalTokensUsed := 0
    sessionStarted := 0 }

/-- Witness for claim C10 at a concrete state containing a system message. -/
theorem c10_getMessagesForAPI_no_system_role_witness :
    ({ role := Role.user, content := "hi" } : APIMessage).role ≠ Role.system :=
  c10_getMessagesForAPI_no_system_role stateC10
    { role := Role.user, content := "hi" } (by decide)

/-- A row of the contracts table, restricted to the columns the claims
touch. Contract amounts are exact integers (the SQL SUM is exact); NULL
text fields are not modelled, so the IS NOT NULL guards are vacuous and
only the empty-string guard is semantic. -/
structure ContractRow where
  awardTitle : String
  awardeeName : String
  organizationName : String
  areaOfDelivery : String
  businessCategory : String
  contractAmount : Int
deriving DecidableEq

/-- One aggregate row of a breakdown query: label, SUM(contract_amount),
COUNT(*). -/
structure BreakdownRow where
  label : String
  totalValue : Int
  count : Nat
deriving DecidableEq

/-- The ORDER BY total_value DESC comparison. -/
def byTotalDesc (a b : BreakdownRow) : Prop := b.totalValue ≤ a.totalValue

instance : DecidableRel byTotalDesc := fun a b => inferInstanceAs (Decidable (a.totalValue ≥ b.totalValue))

instance : IsTotal BreakdownRow byTotalDesc :=
  ⟨fun a b => Int.le_total b.totalValue a.totalValue⟩

instance : IsTrans BreakdownRow byTotalDesc :=
  ⟨fun _ _ _ hab hbc => le_trans hbc hab⟩

/-- SUM(contract_amount) over a group. -/
def sumAmounts (rows : List ContractRow) : Int :=
  rows.foldl (fun acc r => acc + r.contractAmount) 0

/-- The WHERE clause of the breakdown queries: keep rows whose grouping
column is non-empty. -/
def validRows (label : ContractRow → String) (rows : List ContractRow) :
    List ContractRow :=
  rows.filter (fun r => !(label r).data.isEmpty)

/-- The aggregate row for one grouping key. -/
def groupFor (label : ContractRow → String) (rows : List ContractRow)
    (l : String) : BreakdownRow :=
  { label := l
    totalValue := sumAmounts ((validRows label rows).filter (fun r => label r == l))
    count := ((validRows label rows).filter (fun r => label r == l)).length }

/-- GROUP BY label, ORDER BY SUM(contract_amount) DESC, LIMIT topN,
over an in-memory contracts table. -/
def breakdownBy (label : ContractRow → String) (topN : Nat)
    (rows : List ContractRow) : List BreakdownRow :=
  (List.insertionSort byTotalDesc
    (((validRows label rows).map label).eraseDups.map (groupFor label rows))).take topN

/-- getCategoryBreakdown from duckdbService: grouped by business_category,
LIMIT 20. -/
def getCategoryBreakdown (rows : List ContractRow) : List BreakdownRow :=
  breakdownBy (fun r => r.businessCategory) 20 rows

/-- getAreaBreakdown from duckdbService: grouped by area_of_delivery,
LIMIT 30. -/
def getAreaBreakdown (rows : List ContractRow) : List BreakdownRow :=
  breakdownBy (fun r => r.areaOfDelivery) 30 rows

/-- A dataset with 31 rows in 31 distinct delivery areas. -/
def exAreaRows : List ContractRow :=
  (List.range 31).map (fun i =>
    { awardTitle := "t", awardeeName := "s", organizationName := "o",
      areaOfDelivery := "A" ++ toString i, businessCategory := "c",
      contractAmount := 1 })

/-- Claim C7 counterexample: on a dataset with 31 distinct areas a top-50
cap would return all 31 aggregate rows, but the code's area breakdown uses
LIMIT 30 and returns only 30. -/
theorem c7_area_cap_is_30_not_50 :
    ((exAreaRows.map (fun r => r.areaOfDelivery)).eraseDups).length = 31 ∧
    (getAreaBreakdown exAreaRows).length = 30 := by
  decide

/-- Claim C7 (amended): both breakdown operations return {label, count,
total amount} rows sorted by total amount descending; the area breakdown is
capped at the top 30 areas (not 50) and the category breakdown at the top
20 categories. -/
theorem c7_breakdowns_sorted_capped (rows : List ContractRow) :
    List.Sorted byTotalDesc (getAreaBreakdown rows) ∧
    (getAreaBreakdown rows).length ≤ 30 ∧
    List.Sorted byTotalDesc (getCategoryBreakdown rows) ∧
    (getCategoryBreakdown rows).length ≤ 20 := by
  have hsorted : ∀ (label : ContractRow → String) (topN : Nat),
      List.Sorted byTotalDesc (breakdownBy label topN rows) := by
    intro label topN
    exact List.Pairwise.sublist (List.take_sublist _ _)
      (List.sorted_insertionSort byTotalDesc _)
  have hlen : ∀ (label : ContractRow → String) (topN : Nat),
      (breakdownBy label topN rows).length ≤ topN := by
    intro label topN
    unfold breakdownBy
    rw [List.length_take]
    exact inf_le_left
  exact ⟨hsorted _ _, hlen _ _, hsorted _ _, hlen _ _⟩

/-- The single-quote character escaped by the query builder. -/
def sqChar : Char := Char.ofNat 39

/-- The character-level effect of the JS global regex replace doubling
every single quote in a filter value. -/
def escapeQuoteChars : List Char → List Char
  | [] => []
  | c :: rest =>
      (if c == sqChar then [sqChar, sqChar] else [c]) ++ escapeQuoteChars rest

/-- `value.replace` of every single quote by two, as done on searchQuery,
area and category before embedding them into the SQL text. -/
def escapeSqlText (s : String) : String := String.mk (escapeQuoteChars s.data)

/-- SQL-literal decoding of a quote-doubled character sequence: each
doubled quote stands for one literal quote. -/
def collapseQuoteChars : List Char → List Char
  | [] => []
  | [c] => [c]
  | c1 :: c2 :: rest =>
      if c1 == sqChar && c2 == sqChar then sqChar :: collapseQuoteChars rest
      else c1 :: collapseQuoteChars (c2 :: rest)

theorem escapeQuoteChars_cons_ne_nil (c : Char) (rest : List Char) :
    escapeQuoteChars (c :: rest) ≠ [] := by
  show ((if c == sqChar then [sqChar, sqChar] else [c]) ++ escapeQuoteChars rest) ≠ []
  split <;> simp

theorem collapse_escape (cs : List Char) :
    collapseQuoteChars (escapeQuoteChars cs) = cs := by
  induction cs with
  | nil => rfl
  | cons c rest ih =>
      show collapseQuoteChars
        ((if c == sqChar then [sqChar, sqChar] else [c]) ++ escapeQuoteChars rest) = c :: rest
      by_cases hc : c = sqChar
      · subst hc
        rw [if_pos (beq_self_eq_true sqChar)]
        show collapseQuoteChars (sqChar :: sqChar :: escapeQuoteChars rest) = _
        rw [collapseQuoteChars, if_pos, ih]
        rfl
      · have hcb : (c == sqChar) = false := beq_eq_false_iff_ne.mpr hc
        rw [if_neg (by rw [hcb]; exact Bool.false_ne_true)]
        cases rest with
        | nil => rfl
        | cons c2 rest2 =>
            cases he : escapeQuoteChars (c2 :: rest2) with
            | nil => exact absurd he (escapeQuoteChars_cons_ne_nil c2 rest2)
            | cons e1 etail =>
                show collapseQuoteChars (c :: e1 :: etail) = c :: c2 :: rest2
                rw [collapseQuoteChars,
                  if_neg (by rw [hcb, Bool.false_and]; exact Bool.false_ne_true)]
                rw [← he, ih]

/-- Does the haystack start with the needle. -/
def startsWithSeg : List Char → List Char → Bool
  | [], _ => true
  | _ :: _, [] => false
  | a :: as, b :: bs => a == b && startsWithSeg as bs

/-- Does the needle occur contiguously anywhere in the haystack
(LIKE with a percent on either side, for a wildcard-free needle). -/
def hasSeg (needle : List Char) : List Char → Bool
  | [] => needle.isEmpty
  | b :: bs => startsWithSeg needle (b :: bs) || hasSeg needle bs

/-- LOWER / toLowerCase on the character sequence of a string (ASCII data). -/
def lowerChars (s : String) : List Char := s.data.map Char.toLower

/-- The percent character, the LIKE any-sequence wildcard. -/
def pctChar : Char := Char.ofNat 37

/-- The underscore character, the LIKE single-character wildcard. -/
def usChar : Char := Char.ofNat 95

/-- Does the predicate hold of some suffix of the list. The percent
wildcard may consume any prefix of the text before the rest of the
pattern resumes. -/
def suffixAny (f : List Char → Bool) : List Char → Bool
  | [] => f []
  | t :: ts => f (t :: ts) || suffixAny f ts

/-- SQL LIKE matching of a pattern against a text: a percent matches any
character sequence (including the empty one), an underscore matches
exactly one character, and any other pattern character matches itself. -/
def likeMatch : List Char → List Char → Bool
  | [], text => text.isEmpty
  | p :: ps, text =>
      if p == pctChar then
        suffixAny (likeMatch ps) text
      else
        match text with
        | [] => false
        | t :: ts => (p == usChar || p == t) && likeMatch ps ts

/-- The effective search condition queryContracts builds for one column:
`LOWER(col) LIKE` the literal holding a percent, the escaped and
lowercased query, and a percent. Only quote characters are escaped, and
the SQL string-literal decoding collapses the doubled quotes back
(collapse_escape below), so the effective LIKE pattern is a percent
wildcard, the lowercased query text, and a percent wildcard — with any
percent or underscore inside the query remaining a live LIKE wildcard. -/
def likeContains (q field : String) : Bool :=
  likeMatch (pctChar :: (lowerChars q ++ [pctChar])) (lowerChars field)

/-- The searchQuery condition of queryContracts: case-insensitive substring
match against award_title, awardee_name or organization_name. -/
def rowMatchesSearch (q : String) (r : ContractRow) : Bool :=
  likeContains q r.awardTitle || likeContains q r.awardeeName ||
    likeContains q r.organizationName

/-- The area condition of queryContracts: `area_of_delivery = value`. -/
def rowMatchesArea (a : String) (r : ContractRow) : Bool := r.areaOfDelivery == a

/-- The category condition of queryContracts: `business_category = value`. -/
def rowMatchesCategory (c : String) (r : ContractRow) : Bool := r.businessCategory == c

/-- The one-character string holding the SQL quote. -/
def sqlQuote : String := String.singleton sqChar

/-- The SQL fragment queryContracts builds for the area filter. -/
def areaConditionSql (a : String) : String :=
  "area_of_delivery = " ++ sqlQuote ++ escapeSqlText a ++ sqlQuote

/-- The SQL fragment queryContracts builds for the category filter. -/
def categoryConditionSql (c : String) : String :=
  "business_category = " ++ sqlQuote ++ escapeSqlText c ++ sqlQuote

/-- The claim's matching predicate, written from the spec's words: a row
field satisfies a text filter iff the filter value occurs, ignoring case,
as a substring of the field. -/
def specCiSubstringMatch (filterVal field : String) : Bool :=
  hasSeg (lowerChars filterVal) (lowerChars field)

theorem startsWithSeg_iff (n : List Char) :
    ∀ h : List Char, startsWithSeg n h = true ↔ ∃ t, h = n ++ t := by
  induction n with
  | nil =>
      intro h
      exact iff_of_true rfl ⟨h, (List.nil_append h).symm⟩
  | cons a as ih =>
      intro h
      cases h with
      | nil =>
          simp only [startsWithSeg]
          constructor
          · intro hf; exact absurd hf Bool.false_ne_true
          · rintro ⟨t, ht⟩; cases ht
      | cons b bs =>
          simp only [startsWithSeg, Bool.and_eq_true, beq_iff_eq, ih]
          constructor
          · rintro ⟨rfl, t, rfl⟩
            exact ⟨t, rfl⟩
          · rintro ⟨t, het⟩
            rw [List.cons_append] at het
            injection het with h1 h2
            exact ⟨h1.symm, t, h2⟩

theorem hasSeg_iff (n : List Char) :
    ∀ h : List Char, hasSeg n h = true ↔ ∃ p t, h = p ++ n ++ t := by
  intro h
  induction h with
  | nil =>
      simp only [hasSeg, List.isEmpty_iff]
      constructor
      · rintro rfl; exact ⟨[], [], rfl⟩
      · rintro ⟨p, t, hpt⟩
        rcases List.append_eq_nil.mp hpt.symm with ⟨hpn, _⟩
        rcases List.append_eq_nil.mp hpn with ⟨_, hn⟩
        exact hn
  | cons b bs ih =>
      simp only [hasSeg, Bool.or_eq_true, ih, startsWithSeg_iff]
      constructor
      · rintro (⟨t, het⟩ | ⟨p, t, hpt⟩)
        · exact ⟨[], t, by rw [List.nil_append]; exact het⟩
        · refine ⟨b :: p, t, ?_⟩
          rw [List.cons_append, List.cons_append, hpt]
      · rintro ⟨p, t, hpt⟩
        cases p with
        | nil =>
            left
            exact ⟨t, by rw [List.nil_append] at hpt; exact hpt⟩
        | cons p0 ps =>
            right
            rw [List.cons_append, List.cons_append] at hpt
            injection hpt with h1 h2
            exact ⟨ps, t, h2⟩

theorem suffixAny_iff (f : List Char → Bool) (text : List Char) :
    suffixAny f text = true ↔ ∃ a b, text = a ++ b ∧ f b = true := by
  induction text with
  | nil =>
      simp only [suffixAny]
      constructor
      · intro h
        exact ⟨[], [], rfl, h⟩
      · rintro ⟨a, b, hab, hf⟩
        rcases List.append_eq_nil.mp hab.symm with ⟨_, hb⟩
        rw [hb] at hf
        exact hf
  | cons t ts ih =>
      simp only [suffixAny, Bool.or_eq_true, ih]
      constructor
      · rintro (h | ⟨a, b, hab, hf⟩)
        · exact ⟨[], t :: ts, rfl, h⟩
        · exact ⟨t :: a, b, by rw [List.cons_append, hab], hf⟩
      · rintro ⟨a, b, hab, hf⟩
        cases a with
        | nil =>
            left
            rw [List.nil_append] at hab
            rw [← hab] at hf
            exact hf
        | cons a0 as =>
            right
            rw [List.cons_append] at hab
            injection hab with h1 h2
            exact ⟨as, b, h2, hf⟩

theorem likeMatch_pct (ps text : List Char) :
    likeMatch (pctChar :: ps) text = true ↔
      ∃ a b, text = a ++ b ∧ likeMatch ps b = true := by
  have h : likeMatch (pctChar :: ps) text = suffixAny (likeMatch ps) text := by
    rw [likeMatch.eq_def]
    dsimp only
    rw [if_pos (beq_self_eq_true pctChar)]
  rw [h, suffixAny_iff]

theorem likeMatch_pct_nil (text : List Char) : likeMatch [pctChar] text = true := by
  rw [likeMatch_pct]
  exact ⟨text, [], (List.append_nil text).symm, rfl⟩

theorem likeMatch_literal (needle rest : List Char) :
    pctChar ∉ needle → usChar ∉ needle →
    ∀ text, likeMatch (needle ++ rest) text = true ↔
      ∃ t2, text = needle ++ t2 ∧ likeMatch rest t2 = true := by
  induction needle with
  | nil =>
      intro _ _ text
      simp only [List.nil_append]
      constructor
      · intro h
        exact ⟨text, rfl, h⟩
      · rintro ⟨t2, rfl, h⟩
        exact h
  | cons n ns ih =>
      intro hpc hus text
      have hn_pct : ¬((n == pctChar) = true) := by
        rw [beq_iff_eq]
        intro hc
        exact hpc (hc ▸ List.mem_cons_self n ns)
      have hn_us : (n == usChar) = false := by
        rw [beq_eq_false_iff_ne]
        intro hc
        exact hus (hc ▸ List.mem_cons_self n ns)
      have hpc2 : pctChar ∉ ns := fun h => hpc (List.mem_cons_of_mem n h)
      have hus2 : usChar ∉ ns := fun h => hus (List.mem_cons_of_mem n h)
      rw [List.cons_append]
      cases text with
      | nil =>
          rw [likeMatch, if_neg hn_pct]
          constructor
          · intro h
            exact absurd h Bool.false_ne_true
          · rintro ⟨t2, ht, _⟩
            cases ht
      | cons t ts =>
          rw [likeMatch, if_neg hn_pct]
          rw [hn_us, Bool.false_or, Bool.and_eq_true, beq_iff_eq, ih hpc2 hus2 ts]
          constructor
          · rintro ⟨rfl, t2, rfl, h⟩
            exact ⟨t2, rfl, h⟩
          · rintro ⟨t2, ht, h⟩
            rw [List.cons_append] at ht
            injection ht with h1 h2
            exact ⟨h1.symm, t2, h2, h⟩

theorem likeMatch_substring (needle : List Char) (hpc : pctChar ∉ needle)
    (hus : usChar ∉ needle) (hay : List Char) :
    likeMatch (pctChar :: (needle ++ [pctChar])) hay = true ↔
      ∃ p t, hay = p ++ needle ++ t := by
  rw [likeMatch_pct]
  constructor
  · rintro ⟨a, b, rfl, hb⟩
    rw [likeMatch_literal needle [pctChar] hpc hus b] at hb
    obtain ⟨t2, rfl, _⟩ := hb
    exact ⟨a, t2, by rw [List.append_assoc]⟩
  · rintro ⟨p, t, rfl⟩
    refine ⟨p, needle ++ t, by rw [List.append_assoc], ?_⟩
    rw [likeMatch_literal needle [pctChar] hpc hus]
    exact ⟨t, rfl, likeMatch_pct_nil t⟩

/-- A concrete row delivered in Metro Manila. -/
def manilaRow : ContractRow :=
  { awardTitle := "t", awardeeName := "s", organizationName := "o",
    areaOfDelivery := "Metro Manila", businessCategory := "Construction",
    contractAmount := 1 }

/-- Claim C8 counterexample: the area filter value "manila" occurs
case-insensitively as a substring of the row's delivery area
"Metro Manila", so the claimed matching semantics would accept the row, but
the code's area condition is exact equality and rejects it. -/
theorem c8_area_not_ci_substring :
    specCiSubstringMatch "manila" manilaRow.areaOfDelivery = true ∧
    rowMatchesArea "manila" manilaRow = false := by
  decide

/-- Claim C8 (amended): for search queries whose (lowercased) text carries
no live LIKE wildcard — lowercasing leaves percent and underscore
untouched, so this is exactly a query free of percent and underscore —
the free-text search filter is case-insensitive substring matching across
award title, awardee name and organization name; queries containing those
characters keep them as live LIKE wildcards, since only quote characters
are escaped. The area and category filters are exact (case-sensitive)
string equality on their columns. Every text filter value has its quote
characters doubled before being embedded in the SQL text, and this
escaping is lossless (the doubled quotes decode back to the original
value). -/
theorem c8_filter_semantics (q a c : String) (r : ContractRow) (v : String) :
    (pctChar ∉ lowerChars q → usChar ∉ lowerChars q →
      (rowMatchesSearch q r = true ↔
        ((∃ p t, lowerChars r.awardTitle = p ++ lowerChars q ++ t) ∨
          (∃ p t, lowerChars r.awardeeName = p ++ lowerChars q ++ t) ∨
          (∃ p t, lowerChars r.organizationName = p ++ lowerChars q ++ t)))) ∧
    (rowMatchesArea a r = true ↔ r.areaOfDelivery = a) ∧
    (rowMatchesCategory c r = true ↔ r.businessCategory = c) ∧
    collapseQuoteChars (escapeSqlText v).data = v.data ∧
    areaConditionSql a = "area_of_delivery = " ++ sqlQuote ++ escapeSqlText a ++ sqlQuote ∧
    categoryConditionSql c = "business_category = " ++ sqlQuote ++ escapeSqlText c ++ sqlQuote := by
  refine ⟨?_, ?_, ?_, collapse_escape v.data, rfl, rfl⟩
  · intro hpc hus
    unfold rowMatchesSearch likeContains
    rw [Bool.or_eq_true, Bool.or_eq_true,
      likeMatch_substring (lowerChars q) hpc hus,
      likeMatch_substring (lowerChars q) hpc hus,
      likeMatch_substring (lowerChars q) hpc hus]
    rw [or_assoc]
  · rw [rowMatchesArea, beq_iff_eq]
  · rw [rowMatchesCategory, beq_iff_eq]

/-- A concrete row whose award title mentions COVID. -/
def covidRow : ContractRow :=
  { awardTitle := "Medical Supplies for COVID-19 Prevention",
    awardeeName := "s", organizationName := "o",
    areaOfDelivery := "Metro Manila", businessCategory := "Medical Supplies",
    contractAmount := 1 }

/-- Witness for the amended claim C8 at the wildcard-free query "COVID"
against a concrete row. -/
theorem c8_filter_semantics_witness :
    rowMatchesSearch "COVID" covidRow = true ↔
      ((∃ p t, lowerChars covidRow.awardTitle = p ++ lowerChars "COVID" ++ t) ∨
        (∃ p t, lowerChars covidRow.awardeeName = p ++ lowerChars "COVID" ++ t) ∨
        (∃ p t, lowerChars covidRow.organizationName = p ++ lowerChars "COVID" ++ t)) :=
  (c8_filter_semantics "COVID" "x" "y" covidRow "z").1 (by decide) (by decide)

/-- The invalid-key error message thrown on HTTP 401. -/
def API_ERROR_INVALID_KEY : String := "Invalid API key. Please check and try again."

/-- validateApiKey from the API-key store, modelled on the HTTP status of
its minimal test request and the provider's optional error message:
`response.ok` (2xx) returns valid; 401 throws the invalid-key error; 429
returns valid (rate-limited but the key works); any other status throws
the provider's error message, or a generic status message when the
response body carries none. -/
def validateApiKeyOutcome (status : Nat) (providerMessage : Option String) :
    Except String Bool :=
  if 200 ≤ status ∧ status < 300 then Except.ok true
  else if status = 401 then Except.error API_ERROR_INVALID_KEY
  else if status = 429 then Except.ok true
  else
    Except.error (match providerMessage with
      | some msg => msg
      | none => "API error: " ++ toString status)

/-- Claim C9: API-key validation treats HTTP 200 and HTTP 429 both as a
valid key, treats HTTP 401 as an invalid key (the invalid-key error), and
turns any other non-success status into a surfaced error carrying the
provider's error message. -/
theorem c9_validateApiKey_statuses (pm : Option String) (st : Nat) (msg : String) :
    validateApiKeyOutcome 200 pm = Except.ok true ∧
    validateApiKeyOutcome 429 pm = Except.ok true ∧
    validateApiKeyOutcome 401 pm = Except.error API_ERROR_INVALID_KEY ∧
    (¬(200 ≤ st ∧ st < 300) → st ≠ 401 → st ≠ 429 →
      validateApiKeyOutcome st (some msg) = Except.error msg) := by
  refine ⟨rfl, ?_, rfl, ?_⟩
  · unfold validateApiKeyOutcome
    rw [if_neg (by omega), if_neg (by omega), if_pos rfl]
  · intro h1 h2 h3
    unfold validateApiKeyOutcome
    rw [if_neg h1, if_neg h2, if_neg h3]

/-- Witness for claim C9 at concrete statuses: 500 with a provider message
surfaces that message. -/
theorem c9_validateApiKey_statuses_witness :
    validateApiKeyOutcome 500 (some "overloaded") = Except.error "overloaded" :=
  (c9_validateApiKey_statuses none 500 "overloaded").2.2.2
    (by omega) (by omega) (by omega)

end SpendWatch
